import Mathlib

/-!
Shallow embedding of `src/driver/src/helper/angle_compensator.cpp`
(class `AngleCompensator` of the sick_scan driver).

Modelling conventions:
* C++ `double` arithmetic is idealised as real arithmetic over `ℝ`; the literal
  constant `0.01745329252` of the source is kept as the exact rational it
  denotes, and the math.h constant `M_PI` is idealised as `Real.pi`.
* `std::vector<unsigned char>` is a `List Nat` of byte values (< 256).
* `std::getline(ss, token, ' ')` tokenisation is modelled by `getlineTokens`.
* `sscanf(s, "%ld", ...)` on a sign-prefixed token is modelled by `sscanfLd`
  (longest sign-and-digits prefix; on matching failure the target keeps its
  initialised value 0, which the caller models with `Option.getD 0`).
* `std::stoul(s, nullptr, 16)` is modelled by `stoulHex`; a parse with no
  digits, or a value out of `unsigned long` range, throws in C++, which the
  embedding models as `none` (the exception escapes `parseAsciiReply`, so no
  field of the object is written on that path).
* The locals `ampl10000th`, `phase10000th`, `offset10000th` are read
  uninitialised by the source when the token count is not 5; the indeterminate
  values they then hold are modelled by an explicit parameter `junk`.
-/

/-- Tokeniser loop of `parseAsciiReply`: repeated `std::getline(ss, token, ' ')`.
The accumulator holds the characters of the token being read, reversed. -/
def getlineAux : List Char → List Char → List String
  | acc, [] => [String.mk acc.reverse]
  | acc, c :: cs =>
      if c = ' ' then
        String.mk acc.reverse :: (if cs = [] then [] else getlineAux [] cs)
      else
        getlineAux (c :: acc) cs

/-- Token list produced by the `while (std::getline(ss, token, delim))` loop of
`parseAsciiReply` on the reply string (delimiter is a single space; a final
`getline` call that reads no character fails and produces no token). -/
def getlineTokens (s : String) : List String :=
  match s.data with
  | [] => []
  | c :: cs => getlineAux [] (c :: cs)

/-- Value of a list of decimal digit characters. -/
def decDigitsVal (ds : List Char) : Nat :=
  ds.foldl (fun a c => 10 * a + (c.toNat - 48)) 0

/-- Value of one hexadecimal digit character, `none` if the character is not a
hex digit. -/
def hexDigitVal (c : Char) : Option Nat :=
  if c.isDigit then some (c.toNat - 48)
  else if 97 ≤ c.toNat ∧ c.toNat ≤ 102 then some (c.toNat - 87)
  else if 65 ≤ c.toNat ∧ c.toNat ≤ 70 then some (c.toNat - 55)
  else none

/-- Value of a list of hexadecimal digit characters. -/
def hexDigitsVal (ds : List Char) : Nat :=
  ds.foldl (fun a c => 16 * a + (hexDigitVal c).getD 0) 0

/-- Model of `sscanf(token, "%ld", &out)`: an optional sign followed by the
longest run of decimal digits; `none` when no digit is converted (matching
failure, `out` is left untouched). In the source this is only reached for
tokens whose first character is `+` or `-`. -/
def sscanfLd (s : String) : Option Int :=
  match s.data with
  | '+' :: cs =>
      let ds := cs.takeWhile Char.isDigit
      if ds.isEmpty then none else some (decDigitsVal ds : Int)
  | '-' :: cs =>
      let ds := cs.takeWhile Char.isDigit
      if ds.isEmpty then none else some (-(decDigitsVal ds : Int))
  | cs =>
      let ds := cs.takeWhile Char.isDigit
      if ds.isEmpty then none else some (decDigitsVal ds : Int)

/-- Longest run of hexadecimal digits at the front of the character list;
`none` if there is no digit or the value exceeds the `unsigned long` range
(`std::stoul` throws `std::invalid_argument` resp. `std::out_of_range`). -/
def stoulHexRun (cs : List Char) : Option Nat :=
  let ds := cs.takeWhile (fun c => (hexDigitVal c).isSome)
  if ds.isEmpty then none
  else if hexDigitsVal ds < 2 ^ 64 then some (hexDigitsVal ds) else none

/-- Model of `std::stoul(token, nullptr, 16)`: optional `0x`/`0X` prefix, then
hex digits (for a bare `0x` with no digit the subject sequence is just `0`). -/
def stoulHex (s : String) : Option Nat :=
  match s.data with
  | '0' :: 'x' :: cs =>
      (match stoulHexRun cs with
       | some v => some v
       | none => some 0)
  | '0' :: 'X' :: cs =>
      (match stoulHexRun cs with
       | some v => some v
       | none => some 0)
  | cs => stoulHexRun cs

/-- One iteration of the value loop of `parseAsciiReply`: inspect the first
character of the token (`cont[2+i][0]`; on an empty `std::string` the indexed
read yields the null character, which is not a sign). A `+`/`-` token goes
through `sscanf "%ld"` (silent failure keeps the initialised 0), any other
token goes through `std::stoul(..., 16)` (`none` = exception thrown). -/
def helperValue (s : String) : Option Int :=
  match s.data with
  | c :: _ =>
      if c = '+' ∨ c = '-' then some ((sscanfLd s).getD 0)
      else (stoulHex s).map (fun n => (n : Int))
  | [] => (stoulHex s).map (fun n => (n : Int))

/-- Reinterpretation of a 16-bit pattern (input in `[0, 65536)`) as a
two's-complement signed value: the cast `(int16_t)(0xFFFF & x)`. -/
def toSigned16 (n : Int) : Int :=
  if n < 32768 then n else n - 65536

/-- Reinterpretation of a 32-bit pattern (input in `[0, 4294967296)`) as a
two's-complement signed value: the cast `(int32_t)(0xFFFFFFFF & x)`. -/
def toSigned32 (n : Int) : Int :=
  if n < 2147483648 then n else n - 4294967296

/-- Core of `parseAsciiReply` after tokenisation: returns `none` when a
`std::stoul` call throws (the exception escapes the function, no member is
written), otherwise `some (retCode, (ampl10000th, phase10000th,
offset10000th))`, the values folded into the member fields by the
unconditional assignments at the end of the function. With a token count
other than 5 those three locals are read uninitialised; `junk` stands for
their indeterminate contents. -/
def parseTokens (junk : Int × Int × Int) (cont : List String) :
    Option (Int × (Int × Int × Int)) :=
  if cont.length = 5 then
    match helperValue (cont.getD 2 ""), helperValue (cont.getD 3 ""),
        helperValue (cont.getD 4 "") with
    | some v0, some v1, some v2 =>
        some (0, (toSigned16 (v0 % 65536), toSigned32 (v1 % 4294967296),
          toSigned16 (v2 % 65536)))
    | _, _, _ => none
  else
    some (0, junk)

/-- The computable part of `AngleCompensator::parseAsciiReply`: tokenise the
reply string and extract return code and the three fixed-point values that are
stored into the object. -/
def parseAsciiReplyCore (junk : Int × Int × Int) (replyStr : String) :
    Option (Int × (Int × Int × Int)) :=
  parseTokens junk (getlineTokens replyStr)

/-- Uppercase hexadecimal digit character for a value below 16, as printed by
`sprintf("%02X", ...)`. -/
def hexDigitUpper (n : Nat) : Char :=
  if n < 10 then Char.ofNat (48 + n) else Char.ofNat (55 + n)

/-- The two characters `sprintf(szTmp, "%02X", b)` produces for a byte. -/
def byteToHex2 (b : Nat) : List Char :=
  [hexDigitUpper (b / 16 % 16), hexDigitUpper (b % 16)]

/-- The hex-formatting arm of the conversion loop of `parseReply`: formats each
remaining byte as two uppercase hex digits; `relCnt` is incremented before the
space test, and a space is appended while `relCnt < 12` whenever
`relCnt % 4 == 0`. -/
def binChunk : List Nat → Nat → List Char
  | [], _ => []
  | b :: bs, relCnt =>
      let rc := relCnt + 1
      byteToHex2 b ++ (if rc < 12 ∧ rc % 4 = 0 then [' '] else []) ++ binChunk bs rc

/-- The `isBinary` branch of `AngleCompensator::parseReply`: bytes at indices
below `sLen - 12` (a signed comparison, so for inputs shorter than 12 bytes no
index qualifies) are appended verbatim as characters, the rest are
hex-formatted by the `binChunk` loop. -/
def binaryToAscii (replyVec : List Nat) : String :=
  let offset : Int := (replyVec.length : Int) - 12
  String.mk ((replyVec.take offset.toNat).map Char.ofNat
    ++ binChunk (replyVec.drop offset.toNat) 0)

/-- The computable part of `AngleCompensator::parseReply`: the local `stmp` is
assigned only in the `isBinary` branch, so in ASCII mode the empty string is
handed to `parseAsciiReply`; the return code of `parseAsciiReply` is discarded
and `parseReply` returns its own `retCode`, which stays 0. -/
def parseReplyCore (junk : Int × Int × Int) (isBinary : Bool)
    (replyVec : List Nat) : Option (Int × (Int × Int × Int)) :=
  let stmp := if isBinary then binaryToAscii replyVec else ""
  (parseAsciiReplyCore junk stmp).map (fun r => (0, r.2))

/-- Byte values of the characters of an ASCII string, as pushed into the
`std::vector<unsigned char>` reply buffer by the testbed. -/
def stringToBytes (s : String) : List Nat :=
  s.data.map Char.toNat

/-- The calibration state held by `AngleCompensator`: the five member fields
written by `parseAsciiReply` and read by the compensation functions. -/
structure AngleCompensator where
  amplCorr : ℝ
  phaseCorrInDeg : ℝ
  phaseCorrInRad : ℝ
  offsetCorrInDeg : ℝ
  offsetCorrInRad : ℝ
  deriving Inhabited

/-- The unconditional member assignments at the end of `parseAsciiReply`:
divide the fixed-point values by 10000 and derive the radian fields using
`M_PI` (idealised as `Real.pi`). -/
noncomputable def applyUpdate (ampl10000th phase10000th offset10000th : Int) :
    AngleCompensator :=
  let amplCorr : ℝ := 1 / 10000 * (ampl10000th : ℝ)
  let phaseCorrInDeg : ℝ := 1 / 10000 * (phase10000th : ℝ)
  let offsetCorrInDeg : ℝ := 1 / 10000 * (offset10000th : ℝ)
  { amplCorr := amplCorr
    phaseCorrInDeg := phaseCorrInDeg
    phaseCorrInRad := phaseCorrInDeg / 180 * Real.pi
    offsetCorrInDeg := offsetCorrInDeg
    offsetCorrInRad := offsetCorrInDeg / 180 * Real.pi }

/-- `AngleCompensator::parseAsciiReply` at the object level: `none` models the
escaping `std::stoul` exception (the prior state `ac` survives unchanged in
the caller); a normal return overwrites every calibration field of `ac`. -/
noncomputable def parseAsciiReply (junk : Int × Int × Int)
    (ac : AngleCompensator) (replyStr : String) :
    Option (Int × AngleCompensator) :=
  (parseAsciiReplyCore junk replyStr).map
    (fun r => (r.1, applyUpdate r.2.1 r.2.2.1 r.2.2.2))

/-- `AngleCompensator::parseReply` at the object level. -/
noncomputable def parseReply (junk : Int × Int × Int) (ac : AngleCompensator)
    (isBinary : Bool) (replyVec : List Nat) : Option (Int × AngleCompensator) :=
  (parseReplyCore junk isBinary replyVec).map
    (fun r => (r.1, applyUpdate r.2.1 r.2.2.1 r.2.2.2))

/-- `AngleCompensator::compensateAngleInRad`: note that the degree-to-radian
factor is the hard-coded decimal literal `0.01745329252` of the source, not
`Real.pi / 180`. -/
noncomputable def compensateAngleInRad (ac : AngleCompensator)
    (angleInRad : ℝ) : ℝ :=
  let deg2radFactor : ℝ := 0.01745329252
  angleInRad + deg2radFactor * ac.amplCorr * Real.sin (angleInRad + ac.phaseCorrInRad)
    + ac.offsetCorrInRad

/-- `AngleCompensator::compensateAngleInDeg`: angle and phase are converted to
radians with the same hard-coded factor, the amplitude term is unscaled. -/
noncomputable def compensateAngleInDeg (ac : AngleCompensator)
    (angleInDeg : ℝ) : ℝ :=
  let deg2radFactor : ℝ := 0.01745329252
  let angleRawInRad := deg2radFactor * angleInDeg
  let phaseCorrInRad := deg2radFactor * ac.phaseCorrInDeg
  angleInDeg + ac.amplCorr * Real.sin (angleRawInRad + phaseCorrInRad)
    + ac.offsetCorrInDeg

/-- A calibration state as left by a previous successful decode of the reply
"sRA MCAngleCompSin +1893 -210503 -245" from the testbed. -/
noncomputable def priorCalibration : AngleCompensator :=
  applyUpdate 1893 (-210503) (-245)

/-- Helper: every `some` result of `parseTokens` carries return code 0. -/
theorem parseTokens_retCode_eq_zero (junk : Int × Int × Int) (cont : List String)
    (out : Int × (Int × Int × Int)) (h : parseTokens junk cont = some out) :
    out.1 = 0 := by
  unfold parseTokens at h
  split at h
  · split at h
    · cases h
      rfl
    · cases h
  · cases h
    rfl

/-- C5: for every well-formed 5-token reply whose three value tokens each
parse under the sign-prefix rule embodied in `helperValue` (signed decimal
after a leading + or -, unsigned hexadecimal otherwise), `parseAsciiReply`
masks the amplitude to 16 bits, the phase to 32 bits and the offset to 16
bits and reinterprets each surviving bit pattern as a two's-complement
signed integer of that width. -/
theorem c5_value_narrowing (junk : Int × Int × Int) (h0 h1 t0 t1 t2 : String)
    (v0 v1 v2 : Int) (e0 : helperValue t0 = some v0)
    (e1 : helperValue t1 = some v1) (e2 : helperValue t2 = some v2) :
    parseTokens junk [h0, h1, t0, t1, t2] =
      some (0, (toSigned16 (v0 % 65536), toSigned32 (v1 % 4294967296),
        toSigned16 (v2 % 65536))) := by
  simp [parseTokens, e0, e1, e2]

/-- C5 witness: the hex token "FFFE" in the 16-bit amplitude field decodes to
the signed value -2. -/
theorem c5_value_narrowing_witness :
    parseTokens (0, 0, 0) ["sRA", "MCAngleCompSin", "FFFE", "0", "0"] =
      some (0, (-2, 0, 0)) := by
  rw [c5_value_narrowing (0, 0, 0) "sRA" "MCAngleCompSin" "FFFE" "0" "0"
    65534 0 0 (by decide) (by decide) (by decide)]
  decide

/-- C10: whenever `parseAsciiReply` or `parseReply` returns normally, the
returned integer code is 0, regardless of frame well-formedness; the return
value never conveys a decode failure. -/
theorem c10_retCode_always_zero (junk : Int × Int × Int) (s : String)
    (isBinary : Bool) (replyVec : List Nat) :
    (∀ out, parseAsciiReplyCore junk s = some out → out.1 = 0) ∧
    (∀ out, parseReplyCore junk isBinary replyVec = some out → out.1 = 0) := by
  constructor
  · intro out h
    exact parseTokens_retCode_eq_zero junk (getlineTokens s) out h
  · intro out h
    unfold parseReplyCore at h
    rcases Option.map_eq_some'.mp h with ⟨r, _, hr⟩
    rw [← hr]

/-- C10 witness: instantiation at the empty ASCII reply and the empty binary
reply vector. -/
theorem c10_retCode_always_zero_witness : ((0 : Int) = 0) ∧ ((0 : Int) = 0) :=
  ⟨(c10_retCode_always_zero (0, 0, 0) "" false []).1 (0, (0, 0, 0)) (by decide),
   (c10_retCode_always_zero (0, 0, 0) "" false []).2 (0, (0, 0, 0)) (by decide)⟩

/-- C7 counterexample: the bare 12-byte frame of the claim, passed through the
binary-to-ASCII conversion, yields only 3 tokens, so the ASCII parser takes
the malformed path and the stored values come from the uninitialized locals
(here instantiated with 0): they do not match the ASCII decode of the reply
"sRA MCAngleCompSin 765 FFFCC9B9 FFFFFF0B". -/
theorem c7_bare_frame_counterexample :
    binaryToAscii [0, 0, 7, 101, 255, 252, 201, 185, 255, 255, 255, 11] =
      "00000765 FFFCC9B9 FFFFFF0B" ∧
    (getlineTokens "00000765 FFFCC9B9 FFFFFF0B").length = 3 ∧
    parseAsciiReplyCore (0, 0, 0)
        (binaryToAscii [0, 0, 7, 101, 255, 252, 201, 185, 255, 255, 255, 11]) =
      some (0, (0, 0, 0)) ∧
    parseAsciiReplyCore (0, 0, 0) "sRA MCAngleCompSin 765 FFFCC9B9 FFFFFF0B" =
      some (0, (1893, -210503, -245)) ∧
    ((0 : Int), (0 : Int), (0 : Int)) ≠ ((1893 : Int), (-210503 : Int), (-245 : Int)) := by
  refine ⟨by decide, by decide, by decide, by decide, by decide⟩

/-- C7 (amended): decoding the ASCII reply "sRA MCAngleCompSin 765 FFFCC9B9
FFFFFF0B" yields the same three signed calibration values as decoding the
equivalent binary reply consisting of the ASCII header bytes of
"sRA MCAngleCompSin " followed by the 12 payload bytes, passed through the
binary conversion and then the ASCII parser. -/
theorem c7_roundtrip_amended :
    parseReplyCore (0, 0, 0) true (stringToBytes "sRA MCAngleCompSin "
        ++ [0, 0, 7, 101, 255, 252, 201, 185, 255, 255, 255, 11]) =
      some (0, (1893, -210503, -245)) ∧
    parseAsciiReplyCore (0, 0, 0) "sRA MCAngleCompSin 765 FFFCC9B9 FFFFFF0B" =
      some (0, (1893, -210503, -245)) := by
  refine ⟨by decide, by decide⟩

/-- C8: evaluation at a 4-byte binary input: `parseReply` performs no length
check, hex-formats all four bytes into the token string "00000765" (one
token), and the ASCII parser then takes its malformed path, overwriting the
model from the uninitialized locals (modelled by junk = (1, 0, 0)) and
returning 0 — no MalformedFrame failure occurs. -/
theorem c8_short_binary_no_failure :
    binaryToAscii [0, 0, 7, 101] = "00000765 " ∧
    (getlineTokens "00000765 ").length = 1 ∧
    parseReplyCore (1, 0, 0) true [0, 0, 7, 101] = some (0, (1, 0, 0)) := by
  refine ⟨by decide, by decide, by decide⟩

/-- C9: evaluation at invalid value tokens: a sign-prefixed token that is not
a valid decimal ("+x") fails silently — sscanf leaves the initialised 0, the
parse succeeds with return code 0 and the model is updated with amplitude 0;
a token without a sign prefix that is not valid hexadecimal ("zz") makes
`std::stoul` throw, and the uncaught exception escapes (`none`) instead of a
typed InvalidNumericLiteral result. -/
theorem c9_invalid_literal_behavior :
    parseAsciiReplyCore (0, 0, 0) "sRA MCAngleCompSin +x -210503 -245" =
      some (0, (0, -210503, -245)) ∧
    parseAsciiReplyCore (0, 0, 0) "sRA MCAngleCompSin zz -210503 -245" = none := by
  refine ⟨by decide, by decide⟩

/-- C1: with isBinary = false the local stmp of `parseReply` is never
assigned, so the empty string — not the payload — is handed to
`parseAsciiReply`: the result equals `parseAsciiReply` on "" for every
payload, and at the testbed's ASCII reply it differs from `parseAsciiReply`
applied to the payload string itself. -/
theorem c1_ascii_mode_ignores_payload :
    (∀ (junk : Int × Int × Int) (ac : AngleCompensator) (replyVec : List Nat),
      parseReply junk ac false replyVec = parseAsciiReply junk ac "") ∧
    parseReply (1, 0, 0) priorCalibration false
        (stringToBytes "sRA MCAngleCompSin 765 FFFCC9B9 FFFFFF0B") ≠
      parseAsciiReply (1, 0, 0) priorCalibration
        "sRA MCAngleCompSin 765 FFFCC9B9 FFFFFF0B" := by
  constructor
  · intro junk ac replyVec
    rfl
  · intro h
    have hL : parseReplyCore (1, 0, 0) false
        (stringToBytes "sRA MCAngleCompSin 765 FFFCC9B9 FFFFFF0B") =
        some (0, (1, 0, 0)) := by decide
    have hR : parseAsciiReplyCore (1, 0, 0)
        "sRA MCAngleCompSin 765 FFFCC9B9 FFFFFF0B" =
        some (0, (1893, -210503, -245)) := by decide
    unfold parseReply parseAsciiReply at h
    rw [hL, hR] at h
    simp only [Option.map_some', Option.some.injEq, Prod.mk.injEq] at h
    have h2 := congrArg AngleCompensator.amplCorr h.2
    norm_num [applyUpdate] at h2

/-- C4: at the 4-token reply of the spec the parser returns 0 and
unconditionally overwrites every calibration field with values derived from
the uninitialized locals (modelled by junk = (1, 0, 0)); the previously set
calibration does not remain in effect and no MalformedFrame error is
reported. -/
theorem c4_malformed_frame_overwrites_model :
    (getlineTokens "sRA MCAngleCompSin 1 2").length = 4 ∧
    parseAsciiReply (1, 0, 0) priorCalibration "sRA MCAngleCompSin 1 2" =
      some (0, applyUpdate 1 0 0) ∧
    applyUpdate 1 0 0 ≠ priorCalibration := by
  refine ⟨by decide, ?_, ?_⟩
  · have hcore : parseAsciiReplyCore (1, 0, 0) "sRA MCAngleCompSin 1 2" =
        some (0, (1, 0, 0)) := by decide
    unfold parseAsciiReply
    rw [hcore]
    rfl
  · intro h
    have h2 := congrArg AngleCompensator.amplCorr h
    norm_num [applyUpdate, priorCalibration] at h2

/-- C2 (amended): compensateAngleInRad returns angleInRad + 0.01745329252 *
amplitudeCorrection * sin(angleInRad + phaseCorrectionRad) +
offsetCorrectionRad, where 0.01745329252 is the hard-coded decimal
approximation of pi/180 used by the source. -/
theorem c2_compensateAngleInRad_amended (ac : AngleCompensator)
    (angleInRad : ℝ) :
    compensateAngleInRad ac angleInRad =
      angleInRad + (0.01745329252 : ℝ) * ac.amplCorr *
        Real.sin (angleInRad + ac.phaseCorrInRad) + ac.offsetCorrInRad := rfl

/-- C2 counterexample: at the state with amplitude 1, radian phase pi/2 and
zero offsets, and input angle 0, compensateAngleInRad returns the literal
0.01745329252, not the pi/180 of the claimed formula — the two differ since
pi < 3.1415926536. -/
theorem c2_factor_counterexample :
    compensateAngleInRad ⟨1, 0, Real.pi / 2, 0, 0⟩ 0 ≠
      0 + Real.pi / 180 * 1 * Real.sin (0 + Real.pi / 2) + 0 := by
  have hpi : Real.pi < (3.1415926536 : ℝ) := by
    linarith [Real.pi_lt_d20]
  have hsin : Real.sin ((0 : ℝ) + Real.pi / 2) = 1 := by
    rw [zero_add, Real.sin_pi_div_two]
  have hL : compensateAngleInRad ⟨1, 0, Real.pi / 2, 0, 0⟩ 0 =
      (0.01745329252 : ℝ) := by
    show (0 : ℝ) + (0.01745329252 : ℝ) * 1 * Real.sin ((0 : ℝ) + Real.pi / 2)
        + 0 = (0.01745329252 : ℝ)
    rw [hsin]
    ring
  have hR : (0 : ℝ) + Real.pi / 180 * 1 * Real.sin (0 + Real.pi / 2) + 0 =
      Real.pi / 180 := by
    rw [hsin]
    ring
  rw [hL, hR]
  intro h
  have hq : Real.pi = 180 * (0.01745329252 : ℝ) := by
    rw [h]
    ring
  linarith [hpi, hq]

/-- C3 (amended): compensateAngleInDeg returns angleInDeg +
amplitudeCorrection * sin(0.01745329252 * angleInDeg + 0.01745329252 *
phaseCorrectionDeg) + offsetCorrectionDeg — the amplitude is unscaled and the
degree-to-radian conversion inside the sine uses the hard-coded literal
0.01745329252, not pi/180. -/
theorem c3_compensateAngleInDeg_amended (ac : AngleCompensator)
    (angleInDeg : ℝ) :
    compensateAngleInDeg ac angleInDeg =
      angleInDeg + ac.amplCorr *
        Real.sin ((0.01745329252 : ℝ) * angleInDeg +
          (0.01745329252 : ℝ) * ac.phaseCorrInDeg) + ac.offsetCorrInDeg := rfl

/-- C3 counterexample: at the state with amplitude 1 and all other fields 0,
and input 1 degree, the sine argument is the literal 0.01745329252 rather
than pi/180; sin is strictly monotone on [-pi/2, pi/2] and
pi/180 < 0.01745329252, so the returned value differs from the claimed
formula. -/
theorem c3_factor_counterexample :
    compensateAngleInDeg ⟨1, 0, 0, 0, 0⟩ 1 ≠
      1 + 1 * Real.sin (Real.pi / 180 * 1 + Real.pi / 180 * 0) + 0 := by
  have hlt : Real.pi / 180 < (0.01745329252 : ℝ) := by
    linarith [Real.pi_lt_d20]
  have hmem1 : Real.pi / 180 ∈ Set.Icc (-(Real.pi / 2)) (Real.pi / 2) := by
    refine Set.mem_Icc.mpr ⟨?_, ?_⟩
    · linarith [Real.pi_pos]
    · linarith [Real.pi_pos]
  have hmem2 : (0.01745329252 : ℝ) ∈ Set.Icc (-(Real.pi / 2)) (Real.pi / 2) := by
    refine Set.mem_Icc.mpr ⟨?_, ?_⟩
    · linarith [Real.pi_pos]
    · linarith [Real.pi_gt_three]
  have hsin : Real.sin (Real.pi / 180) < Real.sin (0.01745329252 : ℝ) :=
    Real.strictMonoOn_sin hmem1 hmem2 hlt
  intro h
  have hL : compensateAngleInDeg ⟨1, 0, 0, 0, 0⟩ 1 =
      1 + Real.sin (0.01745329252 : ℝ) := by
    show (1 : ℝ) + 1 * Real.sin ((0.01745329252 : ℝ) * 1 +
        (0.01745329252 : ℝ) * 0) + 0 = 1 + Real.sin (0.01745329252 : ℝ)
    norm_num
  have hR : (1 : ℝ) + 1 * Real.sin (Real.pi / 180 * 1 + Real.pi / 180 * 0) + 0 =
      1 + Real.sin (Real.pi / 180) := by
    norm_num
  rw [hL, hR] at h
  have heq : Real.sin (Real.pi / 180) = Real.sin (0.01745329252 : ℝ) := by
    linarith
  linarith [hsin, heq.le, heq.ge]

/-- C6 counterexample: on the 12-byte frame of the testbed the conversion
produces the token string "00000765 FFFCC9B9 FFFFFF0B", whose three
space-separated groups have 8, 8 and 8 hex characters — not the 4, 8 and 4
characters the claim states. -/
theorem c6_grouping_counterexample :
    binaryToAscii [0, 0, 7, 101, 255, 252, 201, 185, 255, 255, 255, 11] =
      "00000765 FFFCC9B9 FFFFFF0B" ∧
    (getlineTokens (binaryToAscii
        [0, 0, 7, 101, 255, 252, 201, 185, 255, 255, 255, 11])).map
      String.length = [8, 8, 8] ∧
    ([8, 8, 8] : List Nat) ≠ [4, 8, 4] := by
  refine ⟨by decide, by decide, by decide⟩

/-- C6 (amended): for every frame of n >= 12 bytes all bytes before n-12 are
copied through verbatim as characters and each of the trailing 12 bytes is
formatted as two uppercase hex digits, with a single space inserted after the
4th and after the 8th hex pair, so the trailing payload forms three
space-separated groups of 8, 8 and 8 hex characters (4, 4 and 4 bytes). -/
theorem c6_binaryToAscii_amended (pre : List Nat)
    (b0 b1 b2 b3 b4 b5 b6 b7 b8 b9 b10 b11 : Nat) :
    binaryToAscii (pre ++ [b0, b1, b2, b3, b4, b5, b6, b7, b8, b9, b10, b11]) =
      String.mk (pre.map Char.ofNat
        ++ byteToHex2 b0 ++ byteToHex2 b1 ++ byteToHex2 b2 ++ byteToHex2 b3
        ++ [' '] ++ byteToHex2 b4 ++ byteToHex2 b5 ++ byteToHex2 b6
        ++ byteToHex2 b7 ++ [' '] ++ byteToHex2 b8 ++ byteToHex2 b9
        ++ byteToHex2 b10 ++ byteToHex2 b11) := by
  have hn : ((((pre ++ [b0, b1, b2, b3, b4, b5, b6, b7, b8, b9, b10, b11]).length : Int))
      - 12).toNat = pre.length := by
    simp only [List.length_append, List.length_cons, List.length_nil]
    omega
  simp only [binaryToAscii]
  rw [hn, List.take_left, List.drop_left]
  refine congrArg String.mk ?_
  simp [binChunk, List.append_assoc]
